import Mathlib

/-!
Shallow embedding of the searchable-PDF construction in `src/app.py`
(functions `create_searchable_pdf`, its inner helper `create_pdf_with_image`,
and the per-batch driver `process_single_pdf`).

Modelling conventions:
* Pixel coordinates and confidence scores are Python floats; they are modelled
  over `ℚ` with exact arithmetic.
* A working bitmap is abstracted as its dimensions together with the encoding
  transformation applied to the single source bitmap (`raw`, or a JPEG
  re-encode at a given quality).  The byte size of an assembled PDF
  (`os.path.getsize` after `create_pdf_with_image`) depends on the actual
  pixel data and the PDF writer, so it is a parameter
  `A : Image → List Region → ℕ` of the search.
* `int(x * (max_pixels / current_pixels) ** 0.5)` (app.py lines 134-136) is
  modelled in exact real arithmetic: for naturals the value
  `⌊x • √(m / c)⌋` equals `Nat.sqrt (x * x * m / c)`.
* `PIL.Image.thumbnail((t, t))` shrinks (never grows) the bitmap so that the
  longest side becomes `t`, preserving aspect ratio with the short side
  rounded to nearest (at least 1).
* File-system effects of the search: the candidate PDF is written to a temp
  path and `os.rename`d to the output path on acceptance.  In the fallback
  path (no tier fits the budget) app.py renames the temp file at line 275 and
  then executes a second `os.rename` of the same, now missing, temp path at
  line 305, so `FileNotFoundError` is raised after the output file has been
  populated.  `Outcome.fnfError a s` records exactly that: the output path
  holds attempt `a`, the last reported size is `s`, and the call raises
  instead of returning.
-/

/-- One recognized OCR region: a 4-point quadrilateral in image pixel
coordinates (EasyOCR order: top-left, top-right, bottom-right, bottom-left),
a text string and a confidence score.  Source: the `(bbox, text, confidence)`
tuples consumed at app.py lines 155-167 and 248-254. -/
structure Region where
  p0 : ℚ × ℚ
  p1 : ℚ × ℚ
  p2 : ℚ × ℚ
  p3 : ℚ × ℚ
  text : String
  conf : ℚ
deriving DecidableEq

/-- Encoding state of the working bitmap: raw rasterizer output, or the JPEG
re-encode (with RGBA flattened to RGB) produced at app.py lines 193-197 and
236-240. -/
inductive Encoding where
  | raw : Encoding
  | jpeg (q : ℕ) : Encoding
deriving DecidableEq

/-- The working bitmap, abstracted to dimensions plus encoding state. -/
structure Image where
  width : ℕ
  height : ℕ
  encoding : Encoding
deriving DecidableEq

/-- JPEG re-encode at quality `q`: dimensions unchanged (app.py 193-197). -/
def jpegVariant (g : Image) (q : ℕ) : Image :=
  Image.mk g.width g.height (Encoding.jpeg q)

/-- One call of `create_pdf_with_image`: the bitmap handed to it and the OCR
region list handed to it. -/
structure Attempt where
  img : Image
  regions : List Region
deriving DecidableEq

/-- The compression settings dictionaries cached on the function object
(`create_searchable_pdf._last_compression_settings`, app.py lines 204, 261,
280, 292, 299).  The resize factors 0.9 … 0.5 are exact multiples of 1/10,
so a factor is carried as its numerator over 10 (`factor10`). -/
inductive Settings where
  | noCompression : Settings
  | jpegOnly (q : ℕ) : Settings
  | resizeAndJpeg (factor10 : ℕ) (q : ℕ) : Settings
deriving DecidableEq

/-- How one call of `create_searchable_pdf` ends.  `ok a s`: the bytes of
attempt `a` (of size `s`) were renamed to the output path and the function
returned.  `fnfError a s`: the fallback path moved attempt `a` to the output
path (app.py:275) and then raised `FileNotFoundError` on the duplicated
rename of the missing temp file (app.py:305). -/
inductive Outcome where
  | ok (a : Attempt) (size : ℕ) : Outcome
  | fnfError (a : Attempt) (size : ℕ) : Outcome
deriving DecidableEq

/-- Observable result of one `create_searchable_pdf` call: the outcome, every
assembly attempt in order (each one a `create_pdf_with_image` call), and the
settings left in `_last_compression_settings` (for a fresh session). -/
structure SearchResult where
  outcome : Outcome
  attempts : List Attempt
  cache : Option Settings
deriving DecidableEq

/-- app.py line 128: `max_pixels = 50_000_000`. -/
def maxPixels : ℕ := 50000000

/-- app.py line 224: resize attempts stop below 600 px. -/
def legibilityFloor : ℕ := 600

/-- app.py line 193: `for quality in [90, 80, 70, 60]`. -/
def qualityLadder : List ℕ := [90, 80, 70, 60]

/-- app.py line 220: `for resize_factor in [0.9, 0.8, 0.7, 0.6, 0.5]`,
each factor represented by its numerator over 10. -/
def resizeLadder : List ℕ := [9, 8, 7, 6, 5]

/-- app.py lines 134-137: uniform downscale of an oversize bitmap by
`scale_factor = (max_pixels / current_pixels) ** 0.5`, each dimension
truncated by `int(...)`.  In exact arithmetic
`⌊w • √(m / (w • h))⌋ = Nat.sqrt (w * w * m / (w * h))`. -/
def guardResize (w h : ℕ) : ℕ × ℕ :=
  (Nat.sqrt (w * w * maxPixels / (w * h)), Nat.sqrt (h * h * maxPixels / (w * h)))

/-- app.py lines 129-138: dimensions of the working bitmap after the
unconditional oversize guard (`if current_pixels > max_pixels`). -/
def effectiveDims (w h : ℕ) : ℕ × ℕ :=
  if maxPixels < w * h then guardResize w h else (w, h)

/-- The working bitmap entering the budget search: post-guard dimensions,
raw encoding. -/
def effectiveImage (w h : ℕ) : Image :=
  Image.mk (effectiveDims w h).1 (effectiveDims w h).2 Encoding.raw

/-- One `drawString` of invisible overlay text emitted by
`create_pdf_with_image` (app.py lines 157-167). -/
structure DrawOp where
  x : ℚ
  y : ℚ
  fontSize : ℚ
  alpha : ℚ
  text : String
deriving DecidableEq

/-- app.py lines 157-167: `x1, y1 = bbox[0]`, `x3, y3 = bbox[2]`,
`x = x1`, `y = img_height - y3`, `height = y3 - y1`, transparent fill,
`setFont("Helvetica", max(8, height * 0.8))`. -/
def drawOpOf (imgHeight : ℚ) (r : Region) : DrawOp :=
  DrawOp.mk r.p0.1 (imgHeight - r.p2.2) (max 8 ((r.p2.2 - r.p0.2) * (8/10))) 0 r.text

/-- The text operations of one `create_pdf_with_image` call (app.py lines
155-167): loop over the OCR tuples, drawing only those with
`confidence > 0.5`. -/
def drawnTextOps (imgHeight : ℚ) : List Region → List DrawOp
  | [] => []
  | r :: rest =>
    if 1/2 < r.conf then drawOpOf imgHeight r :: drawnTextOps imgHeight rest
    else drawnTextOps imgHeight rest

/-- Scale one bbox point (app.py lines 251-252). -/
def scalePoint (ws hs : ℚ) (p : ℚ × ℚ) : ℚ × ℚ := (p.1 * ws, p.2 * hs)

/-- Scale every point of one region, keeping text and confidence
(app.py lines 248-254 body). -/
def scaleRegion (ws hs : ℚ) (r : Region) : Region :=
  Region.mk (scalePoint ws hs r.p0) (scalePoint ws hs r.p1) (scalePoint ws hs r.p2)
    (scalePoint ws hs r.p3) r.text r.conf

/-- app.py lines 243-254: rescale OCR regions from dimensions `(w0, h0)` to
`(w1, h1)` with `width_scale = w1 / w0` and `height_scale = h1 / h0`, built
in source order. -/
def projectRegions (w0 h0 w1 h1 : ℕ) : List Region → List Region
  | [] => []
  | r :: rest =>
    scaleRegion ((w1 : ℚ) / (w0 : ℚ)) ((h1 : ℚ) / (h0 : ℚ)) r ::
      projectRegions w0 h0 w1 h1 rest

/-- `PIL.Image.thumbnail((t, t))` (app.py line 228): no change unless it
shrinks; otherwise the longest side becomes `t` and the short side is scaled
by the same factor, rounded to nearest, at least 1. -/
def thumbnailDims (w h t : ℕ) : ℕ × ℕ :=
  if max w h ≤ t then (w, h)
  else if h ≤ w then (t, max 1 ((h * t + w / 2) / w))
  else (max 1 ((w * t + h / 2) / h), t)

/-- app.py lines 193-213: the JPEG quality ladder.  `acc` accumulates the
assembly attempts made so far; the second component reports the accepted
`(quality, size)`, if any. -/
def runQuality (A : Image → List Region → ℕ) (g : Image) (rs : List Region) (B : ℕ) :
    List ℕ → List Attempt → List Attempt × Option (ℕ × ℕ)
  | [], acc => (acc, none)
  | q :: qs, acc =>
    let a : Attempt := Attempt.mk (jpegVariant g q) rs
    let s := A a.img a.regions
    if s ≤ B then (acc ++ [a], some (q, s))
    else runQuality A g rs B qs (acc ++ [a])

/-- app.py line 221: `target_dimension = int(max_dimension * resize_factor)`;
with `resize_factor = f10 / 10` this truncation is exactly
`max_dimension * f10 / 10` in natural-number division. -/
def resizeTarget (g : Image) (f10 : ℕ) : ℕ :=
  max g.width g.height * f10 / 10

/-- One resize-ladder candidate (app.py lines 227-254): thumbnail to `t`,
re-encode as JPEG quality 75, rescale the regions from the post-guard
dimensions to the new dimensions. -/
def resizeAttempt (g : Image) (rs : List Region) (t : ℕ) : Attempt :=
  Attempt.mk
    (Image.mk (thumbnailDims g.width g.height t).1 (thumbnailDims g.width g.height t).2
      (Encoding.jpeg 75))
    (projectRegions g.width g.height (thumbnailDims g.width g.height t).1
      (thumbnailDims g.width g.height t).2 rs)

/-- app.py lines 220-271: the resize ladder.  The loop breaks (without an
attempt) as soon as `target_dimension < 600`.  The `ℚ` component of the
result is the value left in the Python variable `resize_factor` when the
loop ends: the factor at the break, or the last factor processed. -/
def runResize (A : Image → List Region → ℕ) (g : Image) (rs : List Region) (B : ℕ) :
    List ℕ → List Attempt → ℕ → List Attempt × ℕ × Option (ℕ × Attempt × ℕ)
  | [], acc, lastF => (acc, lastF, none)
  | f :: fs, acc, _ =>
    let t := resizeTarget g f
    if t < legibilityFloor then (acc, f, none)
    else
      let a := resizeAttempt g rs t
      let s := A a.img a.regions
      if s ≤ B then (acc ++ [a], f, some (f, a, s))
      else runResize A g rs B fs (acc ++ [a]) f

/-- `create_searchable_pdf` (app.py lines 119-308), parametrized by the
assembled-PDF size function `A`.  Tier order: original assembly, JPEG
quality ladder, resize ladder, then the fallback path, which populates the
output file with the last attempt and raises `FileNotFoundError` on the
duplicated rename at app.py:305.  In the fallback, `_last_compression_settings`
has already been set at app.py lines 291-303: `resize_factor` is always bound
by the loop header, so the `resize_and_jpeg` branch is taken with the last
factor processed. -/
def create_searchable_pdf (w h : ℕ) (rs : List Region) (B : ℕ)
    (A : Image → List Region → ℕ) : SearchResult :=
  let g := effectiveImage w h
  let a0 : Attempt := Attempt.mk g rs
  let s0 := A g rs
  if s0 ≤ B then SearchResult.mk (Outcome.ok a0 s0) [a0] none
  else
    match runQuality A g rs B qualityLadder [a0] with
    | (atts, some (q, s)) =>
        SearchResult.mk (Outcome.ok (Attempt.mk (jpegVariant g q) rs) s) atts
          (some (Settings.jpegOnly q))
    | (atts, none) =>
        match runResize A g rs B resizeLadder atts 9 with
        | (atts2, _, some (f, a, s)) =>
            SearchResult.mk (Outcome.ok a s) atts2 (some (Settings.resizeAndJpeg f 75))
        | (atts2, lastF, none) =>
            let last := atts2.getLast?.getD a0
            SearchResult.mk (Outcome.fnfError last (A last.img last.regions)) atts2
              (some (Settings.resizeAndJpeg lastF 75))

/-- Build the candidate bitmap and regions that a cached settings value
prescribes, against the post-guard dimensions `(w, h)` (mirrors the concrete
tier constructions at app.py lines 193-197 and 220-254). -/
def applySettings (w h : ℕ) (rs : List Region) : Settings → Attempt
  | Settings.noCompression => Attempt.mk (Image.mk w h Encoding.raw) rs
  | Settings.jpegOnly q => Attempt.mk (Image.mk w h (Encoding.jpeg q)) rs
  | Settings.resizeAndJpeg f10 q =>
      let t := max w h * f10 / 10
      Attempt.mk
        (Image.mk (thumbnailDims w h t).1 (thumbnailDims w h t).2 (Encoding.jpeg q))
        (projectRegions w h (thumbnailDims w h t).1 (thumbnailDims w h t).2 rs)

/-- Modelled from the spec: `create_searchable_pdf_with_settings` is called
at app.py:420 for every page after the first but is not defined anywhere
under src/.  Spec section 4.3 "Caching": a cached plan "may be reused
verbatim (same tier/quality/scale) for subsequent pages in the same batch,
skipping the ladder search", and "if a cached plan fails to meet budget on a
later page ... the implementation must fall back to re-running the full
search for that page rather than silently exceeding budget".  With no cached
settings the page runs the full search. -/
def create_searchable_pdf_with_settings (w h : ℕ) (rs : List Region) (B : ℕ)
    (A : Image → List Region → ℕ) : Option Settings → SearchResult
  | none => create_searchable_pdf w h rs B A
  | some st =>
      let a := applySettings (effectiveDims w h).1 (effectiveDims w h).2 rs st
      let s := A a.img a.regions
      if s ≤ B then SearchResult.mk (Outcome.ok a s) [a] (some st)
      else create_searchable_pdf w h rs B A

/-- One page of a batch: its rasterized bitmap (dimensions), its OCR regions
and its assembled-size function. -/
structure PageInput where
  width : ℕ
  height : ℕ
  regions : List Region
  assemble : Image → List Region → ℕ

/-- Full search for one page (app.py:415). -/
def processPage (B : ℕ) (p : PageInput) : SearchResult :=
  create_searchable_pdf p.width p.height p.regions B p.assemble

/-- The settings visible to later pages of the batch (app.py:417).  When the
first page's search raises, the assignment at line 417 is skipped by the
per-page exception handler, so the local `compression_settings` stays
`None`. -/
def batchCache (r : SearchResult) : Option Settings :=
  match r.outcome with
  | Outcome.ok _ _ => r.cache
  | Outcome.fnfError _ _ => none

/-- The per-batch page loop of `process_single_pdf` (app.py lines 391-420):
page 1 runs the full search, every later page is handed the settings cached
by page 1. -/
def processBatch (B : ℕ) : List PageInput → List SearchResult
  | [] => []
  | p :: rest =>
      let r := processPage B p
      r :: rest.map (fun q =>
        create_searchable_pdf_with_settings q.width q.height q.regions B q.assemble
          (batchCache r))

/-- The legibility-floor predicate on an assembly attempt: the longest
dimension of its bitmap is at least 600 px. -/
def floorOK (a : Attempt) : Prop := legibilityFloor ≤ max a.img.width a.img.height

/-- Sample region with confidence 0.9 (concrete instantiations). -/
def regHi : Region := Region.mk (0, 0) (40, 0) (40, 10) (0, 10) "alpha" (9/10)

/-- Sample region with confidence 0.4 (concrete instantiations). -/
def regLo : Region := Region.mk (0, 20) (40, 20) (40, 30) (0, 30) "beta" (4/10)

/-- Sample region with confidence 0.6 (concrete instantiations). -/
def regMid : Region := Region.mk (0, 40) (40, 40) (40, 50) (0, 50) "gamma" (6/10)

/-- Region whose coordinates live far right on a 20000-wide page: used to
exhibit the missing re-projection after the oversize guard. -/
def regFar : Region := Region.mk (15000, 100) (15500, 100) (15500, 160) (15000, 160) "far" (9/10)

/-- Axis-aligned region used for the assembler-position analysis:
top-left (10, 20), bottom-right (110, 50) on a 100-px-high page. -/
def regBox : Region := Region.mk (10, 20) (110, 20) (110, 50) (10, 50) "hi" (9/10)

/-- The candidate a cached settings value prescribes for a page (its
post-guard dimensions and regions). -/
def cachedAttempt (q : PageInput) (st : Settings) : Attempt :=
  applySettings (effectiveDims q.width q.height).1 (effectiveDims q.width q.height).2
    q.regions st

/-- Assembled size of the cached-settings candidate for a page. -/
def cachedSize (q : PageInput) (st : Settings) : ℕ :=
  q.assemble (cachedAttempt q st).img (cachedAttempt q st).regions

/-- Concrete first page of a batch: Original assembly 2000000 bytes, any
JPEG re-encode 1000000 bytes, so the search accepts JPEG quality 90 under a
1 MiB budget and caches that plan. -/
def pageProbe : PageInput :=
  PageInput.mk 3000 4000 [] (fun img _ =>
    match img.encoding with
    | Encoding.raw => 2000000
    | Encoding.jpeg _ => 1000000)

/-- Concrete later page of the same batch: every assembly 500000 bytes, so
the cached plan fits. -/
def pageNext : PageInput :=
  PageInput.mk 3000 4000 [] (fun _ _ => 500000)

/-- The text-drawing loop of `create_pdf_with_image` is the confidence filter
followed by the per-region draw operation. -/
theorem drawnTextOps_eq (H : ℚ) (ocr : List Region) :
    drawnTextOps H ocr = (ocr.filter fun r => 1/2 < r.conf).map (drawOpOf H) := by
  induction ocr with
  | nil => rfl
  | cons r rest ih =>
    simp only [drawnTextOps, List.filter_cons, decide_eq_true_eq, ih]
    by_cases hc : (1 : ℚ)/2 < r.conf
    · rw [if_pos hc, if_pos hc, List.map_cons]
    · rw [if_neg hc, if_neg hc]

/-- Region projection is the pointwise scaling map. -/
theorem projectRegions_eq_map (w0 h0 w1 h1 : ℕ) (rs : List Region) :
    projectRegions w0 h0 w1 h1 rs
      = rs.map (scaleRegion ((w1 : ℚ) / (w0 : ℚ)) ((h1 : ℚ) / (h0 : ℚ))) := by
  induction rs with
  | nil => rfl
  | cons r rest ih => simp [projectRegions, ih]

/-- C6: for every bitmap and every budget at least the byte size of the
Original-tier assembly, the search returns the Original plan, the output is
exactly the Original-tier assembly with exactly that size, and no
compression or resize attempt is made (the only assembly call is the
Original one). -/
theorem C6_original_fast_path (w h : ℕ) (rs : List Region) (B : ℕ)
    (A : Image → List Region → ℕ) (hfit : A (effectiveImage w h) rs ≤ B) :
    create_searchable_pdf w h rs B A
      = SearchResult.mk
          (Outcome.ok (Attempt.mk (effectiveImage w h) rs) (A (effectiveImage w h) rs))
          [Attempt.mk (effectiveImage w h) rs] none := by
  simp [create_searchable_pdf, hfit]

/-- Witness for C6 at a concrete input: a 3000×4000 page whose Original
assembly (100 bytes) fits the 1 MiB budget. -/
theorem C6_original_fast_path_witness :
    ((fun _ _ => 100 : Image → List Region → ℕ) (effectiveImage 3000 4000) [] ≤ 1048576)
    ∧ create_searchable_pdf 3000 4000 [] 1048576 (fun _ _ => 100)
        = SearchResult.mk
            (Outcome.ok (Attempt.mk (effectiveImage 3000 4000) []) 100)
            [Attempt.mk (effectiveImage 3000 4000) []] none :=
  ⟨by decide, C6_original_fast_path 3000 4000 [] 1048576 (fun _ _ => 100) (by decide)⟩

/-- C2 (failing input): a 3000×4000 page, empty region list, 1 MiB budget,
every assembly 15 MiB.  No tier fits, so the fallback path runs: the last
(most compressed) variant — 1500×2000 at JPEG quality 75 — is moved to the
output path, but the call then raises `FileNotFoundError` on the duplicated
rename at app.py:305 instead of returning the best-effort result. -/
theorem C2_fallback_raises :
    create_searchable_pdf 3000 4000 [] 1048576 (fun _ _ => 15728640)
      = SearchResult.mk
          (Outcome.fnfError (Attempt.mk (Image.mk 1500 2000 (Encoding.jpeg 75)) []) 15728640)
          [Attempt.mk (Image.mk 3000 4000 Encoding.raw) [],
           Attempt.mk (Image.mk 3000 4000 (Encoding.jpeg 90)) [],
           Attempt.mk (Image.mk 3000 4000 (Encoding.jpeg 80)) [],
           Attempt.mk (Image.mk 3000 4000 (Encoding.jpeg 70)) [],
           Attempt.mk (Image.mk 3000 4000 (Encoding.jpeg 60)) [],
           Attempt.mk (Image.mk 2700 3600 (Encoding.jpeg 75)) [],
           Attempt.mk (Image.mk 2400 3200 (Encoding.jpeg 75)) [],
           Attempt.mk (Image.mk 2100 2800 (Encoding.jpeg 75)) [],
           Attempt.mk (Image.mk 1800 2400 (Encoding.jpeg 75)) [],
           Attempt.mk (Image.mk 1500 2000 (Encoding.jpeg 75)) []]
          (some (Settings.resizeAndJpeg 5 75)) := by decide

/-- The oversize guard on a 20000×10000 bitmap: scale factor
√(50000000/200000000) = 1/2 exactly, so the post-guard dimensions are
10000×5000. -/
theorem effectiveDims_guard_example : effectiveDims 20000 10000 = (10000, 5000) := by
  have h1 : 20000 * 20000 * maxPixels / (20000 * 10000) = 100000000 := by
    norm_num [maxPixels]
  have h2 : 10000 * 10000 * maxPixels / (20000 * 10000) = 25000000 := by
    norm_num [maxPixels]
  have e1 : Nat.sqrt 100000000 = 10000 := by
    have h : (100000000 : ℕ) = 10000 * 10000 := by norm_num
    rw [h, Nat.sqrt_eq]
  have e2 : Nat.sqrt 25000000 = 5000 := by
    have h : (25000000 : ℕ) = 5000 * 5000 := by norm_num
    rw [h, Nat.sqrt_eq]
  rw [effectiveDims, if_pos (by norm_num [maxPixels]), guardResize, h1, h2, e1, e2]

/-- C4 (failing input): a 20000×10000 bitmap (200 Mpixels) with a region at
x = 15000.  The guard downscales the bitmap to 10000×5000 before budget
checking, but the very same unprojected region list is handed to the
assembler: the region still points at x = 15000 on a 10000-px-wide page,
while re-projection (which the claim requires) would have moved it. -/
theorem C4_guard_skips_reprojection :
    create_searchable_pdf 20000 10000 [regFar] 1048576 (fun _ _ => 100)
      = SearchResult.mk
          (Outcome.ok (Attempt.mk (Image.mk 10000 5000 Encoding.raw) [regFar]) 100)
          [Attempt.mk (Image.mk 10000 5000 Encoding.raw) [regFar]] none
    ∧ (10000 : ℚ) < regFar.p0.1
    ∧ projectRegions 20000 10000 10000 5000 [regFar] ≠ [regFar] := by
  refine ⟨?_, by norm_num [regFar], ?_⟩
  · have hg : effectiveImage 20000 10000 = Image.mk 10000 5000 Encoding.raw := by
      rw [effectiveImage, effectiveDims_guard_example]
    simp [create_searchable_pdf, hg]
  · simp only [projectRegions_eq_map, List.map_cons, List.map_nil, scaleRegion, scalePoint,
      regFar]
    intro h
    have h0 := List.head_eq_of_cons_eq h
    rw [Region.mk.injEq] at h0
    have hx := congrArg Prod.fst h0.1
    norm_num at hx

/-- C5 (counterexample): on a 100-px-high page, the region with image-space
top-left (10, 20) and bottom-right (110, 50) is drawn at y = 100 − 50 = 50
(the bottom edge flipped), not at the top-left corner converted to document
coordinates, which would be y = 100 − 20 = 80. -/
theorem C5_top_left_counterexample :
    (drawnTextOps 100 [regBox]).map (fun o => (o.x, o.y)) = [((10 : ℚ), (50 : ℚ))]
    ∧ ((10 : ℚ), (50 : ℚ)) ≠ ((10 : ℚ), 100 - regBox.p0.2) := by
  constructor
  · rw [drawnTextOps_eq]
    norm_num [regBox, drawOpOf]
  · norm_num [regBox]

/-- C5 (amended): each region above the confidence threshold is drawn with
a fully transparent fill and font size max(8, 0.8 × region height), at
x = the region's left edge and y = the image height minus the region's
bottom edge — one vertical flip of the region's bottom-left corner into
document coordinates (not of its top-left corner). -/
theorem C5_draw_position_and_font (H : ℚ) (ocr : List Region) :
    drawnTextOps H ocr
      = (ocr.filter fun r => 1/2 < r.conf).map fun r =>
          DrawOp.mk r.p0.1 (H - r.p2.2) (max 8 ((r.p2.2 - r.p0.2) * (8/10))) 0 r.text :=
  drawnTextOps_eq H ocr

/-- C8: exactly the regions with confidence strictly above 0.5 contribute a
text op, in original order; and for confidences [0.9, 0.4, 0.6] exactly the
1st and 3rd regions are retained. -/
theorem C8_confidence_filter (H : ℚ) (ocr : List Region) (r1 r2 r3 : Region)
    (h1 : r1.conf = 9/10) (h2 : r2.conf = 4/10) (h3 : r3.conf = 6/10) :
    (drawnTextOps H ocr).map DrawOp.text
        = (ocr.filter fun r => 1/2 < r.conf).map Region.text
    ∧ (drawnTextOps H [r1, r2, r3]).map DrawOp.text = [r1.text, r3.text] := by
  constructor
  · rw [drawnTextOps_eq, List.map_map]
    rfl
  · have c1 : (1 : ℚ)/2 < r1.conf := by rw [h1]; norm_num
    have c2 : ¬ (1 : ℚ)/2 < r2.conf := by rw [h2]; norm_num
    have c3 : (1 : ℚ)/2 < r3.conf := by rw [h3]; norm_num
    simp only [drawnTextOps, if_pos c1, if_neg c2, if_pos c3]
    rfl

/-- Witness for C8 at concrete regions with confidences 0.9, 0.4, 0.6. -/
theorem C8_confidence_filter_witness :
    regHi.conf = 9/10 ∧ regLo.conf = 4/10 ∧ regMid.conf = 6/10
    ∧ ((drawnTextOps 100 [regHi, regLo, regMid]).map DrawOp.text
          = (([regHi, regLo, regMid].filter fun r => 1/2 < r.conf).map Region.text)
        ∧ (drawnTextOps 100 [regHi, regLo, regMid]).map DrawOp.text
          = [regHi.text, regMid.text]) :=
  ⟨rfl, rfl, rfl, C8_confidence_filter 100 [regHi, regLo, regMid] regHi regLo regMid rfl rfl rfl⟩

/-- C9: projecting a region list from size (w0, h0) to (w1, h1) and back
reproduces the original list exactly (hence within any floating-point
tolerance), for positive sizes. -/
theorem C9_projection_roundtrip (w0 h0 w1 h1 : ℕ) (rs : List Region)
    (hw0 : 0 < w0) (hh0 : 0 < h0) (hw1 : 0 < w1) (hh1 : 0 < h1) :
    projectRegions w1 h1 w0 h0 (projectRegions w0 h0 w1 h1 rs) = rs := by
  have cw0 : ((w0 : ℚ)) ≠ 0 := Nat.cast_ne_zero.mpr hw0.ne'
  have ch0 : ((h0 : ℚ)) ≠ 0 := Nat.cast_ne_zero.mpr hh0.ne'
  have cw1 : ((w1 : ℚ)) ≠ 0 := Nat.cast_ne_zero.mpr hw1.ne'
  have ch1 : ((h1 : ℚ)) ≠ 0 := Nat.cast_ne_zero.mpr hh1.ne'
  have kw : ∀ x : ℚ, x * ((w1 : ℚ)/(w0 : ℚ)) * ((w0 : ℚ)/(w1 : ℚ)) = x := by
    intro x
    field_simp
  have kh : ∀ x : ℚ, x * ((h1 : ℚ)/(h0 : ℚ)) * ((h0 : ℚ)/(h1 : ℚ)) = x := by
    intro x
    field_simp
  induction rs with
  | nil => rfl
  | cons r rest ih =>
    simp only [projectRegions, ih, scaleRegion, scalePoint, kw, kh]

/-- Witness for C9 at a concrete region list and the concrete sizes
3000×4000 → 1500×2000 → 3000×4000. -/
theorem C9_projection_roundtrip_witness :
    0 < 3000 ∧ 0 < 4000 ∧ 0 < 1500 ∧ 0 < 2000
    ∧ projectRegions 1500 2000 3000 4000 (projectRegions 3000 4000 1500 2000 [regHi]) = [regHi] :=
  ⟨by decide, by decide, by decide, by decide,
    C9_projection_roundtrip 3000 4000 1500 2000 [regHi]
      (by decide) (by decide) (by decide) (by decide)⟩

/-- C10: re-projection changes only the polygon points: the output list has
the same length and order, and each entry keeps its text and confidence. -/
theorem C10_projection_keeps_text_conf (w0 h0 w1 h1 : ℕ) (rs : List Region) :
    (projectRegions w0 h0 w1 h1 rs).length = rs.length
    ∧ ∀ i : ℕ,
        ((projectRegions w0 h0 w1 h1 rs)[i]?).map Region.text = (rs[i]?).map Region.text
        ∧ ((projectRegions w0 h0 w1 h1 rs)[i]?).map Region.conf = (rs[i]?).map Region.conf := by
  rw [projectRegions_eq_map]
  refine ⟨List.length_map _ _, ?_⟩
  intro i
  rw [List.getElem?_map]
  rcases rs[i]? with _ | r
  · exact ⟨rfl, rfl⟩
  · exact ⟨rfl, rfl⟩

/-- C7 (counterexample): a 500×400 bitmap (longest dimension already below
the 600-px floor) whose assemblies all exceed the budget.  The resize ladder
breaks immediately, and the fallback variant placed in the output file is
the JPEG-60 re-encode at 500×400 — longest dimension 500 < 600. -/
theorem C7_floor_counterexample :
    (create_searchable_pdf 500 400 [] 1048576 (fun _ _ => 2000000)).outcome
      = Outcome.fnfError (Attempt.mk (Image.mk 500 400 (Encoding.jpeg 60)) []) 2000000
    ∧ max 500 400 < legibilityFloor := by decide

/-- The oversize guard never brings the longest dimension below the
legibility floor: when it fires, the post-guard longest dimension is at
least √50000000 ≥ 600. -/
theorem effectiveDims_floor (w h : ℕ) (hd : legibilityFloor ≤ max w h) :
    legibilityFloor ≤ max (effectiveDims w h).1 (effectiveDims w h).2 := by
  rw [effectiveDims]
  split
  case isTrue hg =>
    rw [guardResize]
    have hfloor : legibilityFloor ≤ Nat.sqrt maxPixels :=
      Nat.le_sqrt.mpr (by norm_num [legibilityFloor, maxPixels])
    have hpos : 0 < w * h := lt_trans (by norm_num [maxPixels]) hg
    rcases le_total h w with hw | hh
    · have hmono : w * h ≤ w * w := Nat.mul_le_mul_left w hw
      have h1 : w * w * maxPixels / (w * w) ≤ w * w * maxPixels / (w * h) :=
        Nat.div_le_div_left hmono hpos
      have h2 : w * w * maxPixels / (w * w) = maxPixels :=
        Nat.mul_div_cancel_left maxPixels (lt_of_lt_of_le hpos hmono)
      have h3 : maxPixels ≤ w * w * maxPixels / (w * h) := le_trans (le_of_eq h2.symm) h1
      exact le_trans (le_trans hfloor (Nat.sqrt_le_sqrt h3)) (le_max_left _ _)
    · have hmono : w * h ≤ h * h := Nat.mul_le_mul_right h hh
      have h1 : h * h * maxPixels / (h * h) ≤ h * h * maxPixels / (w * h) :=
        Nat.div_le_div_left hmono hpos
      have h2 : h * h * maxPixels / (h * h) = maxPixels :=
        Nat.mul_div_cancel_left maxPixels (lt_of_lt_of_le hpos hmono)
      have h3 : maxPixels ≤ h * h * maxPixels / (w * h) := le_trans (le_of_eq h2.symm) h1
      exact le_trans (le_trans hfloor (Nat.sqrt_le_sqrt h3)) (le_max_right _ _)
  case isFalse => exact hd

/-- Thumbnailing to a target at or above the floor keeps the longest
dimension at or above the floor. -/
theorem thumbnailDims_floor (w h t : ℕ) (hd : legibilityFloor ≤ max w h)
    (ht : legibilityFloor ≤ t) :
    legibilityFloor ≤ max (thumbnailDims w h t).1 (thumbnailDims w h t).2 := by
  rw [thumbnailDims]
  split
  · exact hd
  · split
    · exact le_trans ht (le_max_left _ _)
    · exact le_trans ht (le_max_right _ _)

/-- Every attempt recorded by the quality ladder keeps the dimensions of the
working bitmap, so the floor predicate is preserved. -/
theorem runQuality_floor (A : Image → List Region → ℕ) (g : Image) (rs : List Region)
    (B : ℕ) (hg : legibilityFloor ≤ max g.width g.height) :
    ∀ (qs : List ℕ) (acc : List Attempt), (∀ a ∈ acc, floorOK a) →
      ∀ a ∈ (runQuality A g rs B qs acc).1, floorOK a := by
  intro qs
  induction qs with
  | nil =>
    intro acc hacc a ha
    rw [runQuality] at ha
    exact hacc a ha
  | cons q qs ih =>
    intro acc hacc a ha
    have hnew : ∀ a2 ∈ acc ++ [Attempt.mk (jpegVariant g q) rs], floorOK a2 := by
      intro a2 ha2
      rcases List.mem_append.mp ha2 with h | h
      · exact hacc a2 h
      · rw [List.mem_singleton] at h
        subst h
        simpa [floorOK, jpegVariant] using hg
    simp only [runQuality] at ha
    by_cases hfit : A (Attempt.mk (jpegVariant g q) rs).img
        (Attempt.mk (jpegVariant g q) rs).regions ≤ B
    · rw [if_pos hfit] at ha
      exact hnew a ha
    · rw [if_neg hfit] at ha
      exact ih (acc ++ [Attempt.mk (jpegVariant g q) rs]) hnew a ha

/-- Every attempt recorded by the resize ladder — and in particular an
accepted one — satisfies the floor predicate: the ladder breaks before any
target below the floor. -/
theorem runResize_floor (A : Image → List Region → ℕ) (g : Image) (rs : List Region)
    (B : ℕ) (hg : legibilityFloor ≤ max g.width g.height) :
    ∀ (fs : List ℕ) (acc : List Attempt) (f0 : ℕ), (∀ a ∈ acc, floorOK a) →
      (∀ a ∈ (runResize A g rs B fs acc f0).1, floorOK a)
      ∧ ∀ f a s, (runResize A g rs B fs acc f0).2.2 = some (f, a, s) → floorOK a := by
  intro fs
  induction fs with
  | nil =>
    intro acc f0 hacc
    refine ⟨fun a ha => ?_, fun f a s h => ?_⟩
    · rw [runResize] at ha
      exact hacc a ha
    · rw [runResize] at h
      simp at h
  | cons f fs ih =>
    intro acc f0 hacc
    simp only [runResize]
    by_cases hbreak : resizeTarget g f < legibilityFloor
    · rw [if_pos hbreak]
      exact ⟨fun a ha => hacc a ha, fun f2 a s h => by simp at h⟩
    · rw [if_neg hbreak]
      have hta : floorOK (resizeAttempt g rs (resizeTarget g f)) := by
        have ht : legibilityFloor ≤ resizeTarget g f := le_of_not_lt hbreak
        simpa [floorOK, resizeAttempt] using
          thumbnailDims_floor g.width g.height (resizeTarget g f) hg ht
      have hnew : ∀ a2 ∈ acc ++ [resizeAttempt g rs (resizeTarget g f)], floorOK a2 := by
        intro a2 ha2
        rcases List.mem_append.mp ha2 with h | h
        · exact hacc a2 h
        · rw [List.mem_singleton] at h
          subst h
          exact hta
      by_cases hfit : A (resizeAttempt g rs (resizeTarget g f)).img
          (resizeAttempt g rs (resizeTarget g f)).regions ≤ B
      · rw [if_pos hfit]
        refine ⟨fun a ha => hnew a ha, fun f2 a s h => ?_⟩
        simp only [Option.some.injEq, Prod.mk.injEq] at h
        rcases h with ⟨-, ha, -⟩
        subst ha
        exact hta
      · rw [if_neg hfit]
        exact ih (acc ++ [resizeAttempt g rs (resizeTarget g f)]) f hnew

/-- C7 (amended): for every input bitmap whose longest dimension is at least
600 px, every assembly attempt of the search — in particular the accepted or
fallback variant — has longest dimension at least 600 px: the resize ladder
stops descending before any scale below the legibility floor. -/
theorem C7_floor_respected (w h : ℕ) (rs : List Region) (B : ℕ)
    (A : Image → List Region → ℕ) (hdim : legibilityFloor ≤ max w h) :
    (∀ a ∈ (create_searchable_pdf w h rs B A).attempts, floorOK a)
    ∧ ∀ a s,
        ((create_searchable_pdf w h rs B A).outcome = Outcome.ok a s
          ∨ (create_searchable_pdf w h rs B A).outcome = Outcome.fnfError a s)
        → floorOK a := by
  have hg : legibilityFloor ≤ max (effectiveImage w h).width (effectiveImage w h).height := by
    simpa [effectiveImage] using effectiveDims_floor w h hdim
  have ha0 : floorOK (Attempt.mk (effectiveImage w h) rs) := hg
  by_cases h0 : A (effectiveImage w h) rs ≤ B
  · have hres : create_searchable_pdf w h rs B A
        = SearchResult.mk
            (Outcome.ok (Attempt.mk (effectiveImage w h) rs) (A (effectiveImage w h) rs))
            [Attempt.mk (effectiveImage w h) rs] none := by
      simp [create_searchable_pdf, h0]
    rw [hres]
    refine ⟨?_, ?_⟩
    · intro a ha
      rw [List.mem_singleton] at ha
      subst ha
      exact ha0
    · intro a s hor
      rcases hor with hk | hk
      · obtain ⟨h1, -⟩ := Outcome.ok.inj hk
        rw [← h1]
        exact ha0
      · exact absurd hk (by simp)
  · rcases hq : runQuality A (effectiveImage w h) rs B qualityLadder
        [Attempt.mk (effectiveImage w h) rs] with ⟨atts, oq⟩
    have hatts : ∀ a ∈ atts, floorOK a := by
      have hall := runQuality_floor A (effectiveImage w h) rs B hg qualityLadder
        [Attempt.mk (effectiveImage w h) rs]
        (by
          intro a ha
          rw [List.mem_singleton] at ha
          subst ha
          exact ha0)
      rw [hq] at hall
      exact hall
    cases oq with
    | some pr =>
      rcases pr with ⟨q, s⟩
      have hres : create_searchable_pdf w h rs B A
          = SearchResult.mk
              (Outcome.ok (Attempt.mk (jpegVariant (effectiveImage w h) q) rs) s) atts
              (some (Settings.jpegOnly q)) := by
        simp only [create_searchable_pdf]
        rw [if_neg h0, hq]
      rw [hres]
      have hq2 : floorOK (Attempt.mk (jpegVariant (effectiveImage w h) q) rs) := by
        simpa [floorOK, jpegVariant] using hg
      refine ⟨hatts, ?_⟩
      intro a s2 hor
      rcases hor with hk | hk
      · obtain ⟨h1, -⟩ := Outcome.ok.inj hk
        rw [← h1]
        exact hq2
      · exact absurd hk (by simp)
    | none =>
      rcases hr : runResize A (effectiveImage w h) rs B resizeLadder atts 9
          with ⟨atts2, lastF, or2⟩
      have hfloor2 := runResize_floor A (effectiveImage w h) rs B hg resizeLadder atts 9 hatts
      rw [hr] at hfloor2
      obtain ⟨hatts2, hacc⟩ := hfloor2
      cases or2 with
      | some tr =>
        rcases tr with ⟨f, a2, s2⟩
        have hres : create_searchable_pdf w h rs B A
            = SearchResult.mk (Outcome.ok a2 s2) atts2
                (some (Settings.resizeAndJpeg f 75)) := by
          simp [create_searchable_pdf, h0, hq, hr]
        rw [hres]
        have ha2 : floorOK a2 := hacc f a2 s2 rfl
        refine ⟨hatts2, ?_⟩
        intro a s3 hor
        rcases hor with hk | hk
        · obtain ⟨h1, -⟩ := Outcome.ok.inj hk
          rw [← h1]
          exact ha2
        · exact absurd hk (by simp)
      | none =>
        have hres : create_searchable_pdf w h rs B A
            = SearchResult.mk
                (Outcome.fnfError (atts2.getLast?.getD (Attempt.mk (effectiveImage w h) rs))
                  (A (atts2.getLast?.getD (Attempt.mk (effectiveImage w h) rs)).img
                    (atts2.getLast?.getD (Attempt.mk (effectiveImage w h) rs)).regions))
                atts2 (some (Settings.resizeAndJpeg lastF 75)) := by
          simp [create_searchable_pdf, h0, hq, hr]
        rw [hres]
        have hlast : floorOK (atts2.getLast?.getD (Attempt.mk (effectiveImage w h) rs)) := by
          cases e : atts2.getLast? with
          | none => exact ha0
          | some a2 =>
            obtain ⟨hne, heq⟩ := List.mem_getLast?_eq_getLast (Option.mem_def.mpr e)
            have hm : a2 ∈ atts2 := by
              rw [heq]
              exact List.getLast_mem hne
            exact hatts2 a2 hm
        refine ⟨hatts2, ?_⟩
        intro a s3 hor
        rcases hor with hk | hk
        · exact absurd hk (by simp)
        · obtain ⟨h1, -⟩ := Outcome.fnfError.inj hk
          rw [← h1]
          exact hlast

/-- Witness for C7 at the concrete 3000×4000 page whose assemblies all
exceed the 1 MiB budget. -/
theorem C7_floor_respected_witness :
    legibilityFloor ≤ max 3000 4000
    ∧ ((∀ a ∈ (create_searchable_pdf 3000 4000 [] 1048576 (fun _ _ => 15728640)).attempts,
          floorOK a)
        ∧ ∀ a s,
            ((create_searchable_pdf 3000 4000 [] 1048576 (fun _ _ => 15728640)).outcome
                = Outcome.ok a s
              ∨ (create_searchable_pdf 3000 4000 [] 1048576 (fun _ _ => 15728640)).outcome
                = Outcome.fnfError a s)
            → floorOK a) :=
  ⟨by decide, C7_floor_respected 3000 4000 [] 1048576 (fun _ _ => 15728640) (by decide)⟩

/-- C3: when the Original-tier assembly exceeds the budget but some quality
in the descending ladder [90, 80, 70, 60] fits, the search accepts exactly
the first such quality (hence the highest fitting one, as the third conjunct
states), the accepted attempt is a quality re-encode — not a resize — and
its region list is the unprojected input. -/
theorem C3_quality_ladder_first_fit (w h : ℕ) (rs : List Region) (B : ℕ)
    (A : Image → List Region → ℕ) (q : ℕ)
    (hover : B < A (effectiveImage w h) rs)
    (hq : q ∈ qualityLadder)
    (hfit : A (jpegVariant (effectiveImage w h) q) rs ≤ B)
    (hfirst : ∀ q2 ∈ qualityLadder, q < q2 → B < A (jpegVariant (effectiveImage w h) q2) rs) :
    ((create_searchable_pdf w h rs B A).outcome
        = Outcome.ok (Attempt.mk (jpegVariant (effectiveImage w h) q) rs)
            (A (jpegVariant (effectiveImage w h) q) rs)
      ∧ (create_searchable_pdf w h rs B A).cache = some (Settings.jpegOnly q))
    ∧ ∀ q2 ∈ qualityLadder, A (jpegVariant (effectiveImage w h) q2) rs ≤ B → q2 ≤ q := by
  have h0 : ¬ A (effectiveImage w h) rs ≤ B := not_le.mpr hover
  simp only [qualityLadder, List.mem_cons, List.not_mem_nil, or_false] at hq
  rcases hq with hq | hq | hq | hq
  · subst hq
    refine ⟨⟨?_, ?_⟩, ?_⟩
    · simp [create_searchable_pdf, h0, runQuality, qualityLadder, hfit]
    · simp [create_searchable_pdf, h0, runQuality, qualityLadder, hfit]
    · intro q2 hq2 hfit2
      simp only [qualityLadder, List.mem_cons, List.not_mem_nil, or_false] at hq2
      rcases hq2 with h | h | h | h <;> omega
  · subst hq
    have h90 : ¬ A (jpegVariant (effectiveImage w h) 90) rs ≤ B :=
      not_le.mpr (hfirst 90 (by simp [qualityLadder]) (by omega))
    refine ⟨⟨?_, ?_⟩, ?_⟩
    · simp [create_searchable_pdf, h0, runQuality, qualityLadder, h90, hfit]
    · simp [create_searchable_pdf, h0, runQuality, qualityLadder, h90, hfit]
    · intro q2 hq2 hfit2
      simp only [qualityLadder, List.mem_cons, List.not_mem_nil, or_false] at hq2
      rcases hq2 with h | h | h | h
      · exact absurd (h ▸ hfit2) h90
      all_goals omega
  · subst hq
    have h90 : ¬ A (jpegVariant (effectiveImage w h) 90) rs ≤ B :=
      not_le.mpr (hfirst 90 (by simp [qualityLadder]) (by omega))
    have h80 : ¬ A (jpegVariant (effectiveImage w h) 80) rs ≤ B :=
      not_le.mpr (hfirst 80 (by simp [qualityLadder]) (by omega))
    refine ⟨⟨?_, ?_⟩, ?_⟩
    · simp [create_searchable_pdf, h0, runQuality, qualityLadder, h90, h80, hfit]
    · simp [create_searchable_pdf, h0, runQuality, qualityLadder, h90, h80, hfit]
    · intro q2 hq2 hfit2
      simp only [qualityLadder, List.mem_cons, List.not_mem_nil, or_false] at hq2
      rcases hq2 with h | h | h | h
      · exact absurd (h ▸ hfit2) h90
      · exact absurd (h ▸ hfit2) h80
      all_goals omega
  · subst hq
    have h90 : ¬ A (jpegVariant (effectiveImage w h) 90) rs ≤ B :=
      not_le.mpr (hfirst 90 (by simp [qualityLadder]) (by omega))
    have h80 : ¬ A (jpegVariant (effectiveImage w h) 80) rs ≤ B :=
      not_le.mpr (hfirst 80 (by simp [qualityLadder]) (by omega))
    have h70 : ¬ A (jpegVariant (effectiveImage w h) 70) rs ≤ B :=
      not_le.mpr (hfirst 70 (by simp [qualityLadder]) (by omega))
    refine ⟨⟨?_, ?_⟩, ?_⟩
    · simp [create_searchable_pdf, h0, runQuality, qualityLadder, h90, h80, h70, hfit]
    · simp [create_searchable_pdf, h0, runQuality, qualityLadder, h90, h80, h70, hfit]
    · intro q2 hq2 hfit2
      simp only [qualityLadder, List.mem_cons, List.not_mem_nil, or_false] at hq2
      rcases hq2 with h | h | h | h
      · exact absurd (h ▸ hfit2) h90
      · exact absurd (h ▸ hfit2) h80
      · exact absurd (h ▸ hfit2) h70
      · omega

/-- Witness for C3: Original 2000000 bytes, qualities 90 and 80 at 1200000
bytes, qualities 70 and 60 at 900000 bytes, budget 1 MiB — first fit at 70. -/
theorem C3_quality_ladder_first_fit_witness :
    (1048576
        < (fun img (_ : List Region) =>
            match img.encoding with
            | Encoding.raw => 2000000
            | Encoding.jpeg qq => if 80 ≤ qq then 1200000 else 900000)
          (effectiveImage 3000 4000) [])
    ∧ (70 ∈ qualityLadder)
    ∧ ((fun img (_ : List Region) =>
          match img.encoding with
          | Encoding.raw => 2000000
          | Encoding.jpeg qq => if 80 ≤ qq then 1200000 else 900000)
        (jpegVariant (effectiveImage 3000 4000) 70) [] ≤ 1048576)
    ∧ (∀ q2 ∈ qualityLadder, 70 < q2 →
        1048576
          < (fun img (_ : List Region) =>
              match img.encoding with
              | Encoding.raw => 2000000
              | Encoding.jpeg qq => if 80 ≤ qq then 1200000 else 900000)
            (jpegVariant (effectiveImage 3000 4000) q2) [])
    ∧ (((create_searchable_pdf 3000 4000 [] 1048576
            (fun img _ =>
              match img.encoding with
              | Encoding.raw => 2000000
              | Encoding.jpeg qq => if 80 ≤ qq then 1200000 else 900000)).outcome
          = Outcome.ok (Attempt.mk (jpegVariant (effectiveImage 3000 4000) 70) []) 900000
        ∧ (create_searchable_pdf 3000 4000 [] 1048576
            (fun img _ =>
              match img.encoding with
              | Encoding.raw => 2000000
              | Encoding.jpeg qq => if 80 ≤ qq then 1200000 else 900000)).cache
          = some (Settings.jpegOnly 70))
        ∧ ∀ q2 ∈ qualityLadder,
            (fun img (_ : List Region) =>
              match img.encoding with
              | Encoding.raw => 2000000
              | Encoding.jpeg qq => if 80 ≤ qq then 1200000 else 900000)
              (jpegVariant (effectiveImage 3000 4000) q2) [] ≤ 1048576 → q2 ≤ 70) :=
  ⟨by decide, by decide, by decide, by decide,
    C3_quality_ladder_first_fit 3000 4000 [] 1048576
      (fun img _ =>
        match img.encoding with
        | Encoding.raw => 2000000
        | Encoding.jpeg qq => if 80 ≤ qq then 1200000 else 900000)
      70 (by decide) (by decide) (by decide) (by decide)⟩

/-- C1: once the first page's search has cached a plan, every subsequent
page of the batch is processed with exactly that plan: the batch driver
hands each later page the cached settings; a page whose cached-plan assembly
fits the budget performs that single assembly (same tier/quality/scale, no
ladder search) and returns it; and a page on which the cached plan exceeds
the budget re-runs the full search instead of exceeding the budget. -/
theorem C1_batch_plan_caching (B : ℕ) (p : PageInput) (rest : List PageInput) (st : Settings)
    (hcache : batchCache (processPage B p) = some st) :
    processBatch B (p :: rest)
        = processPage B p :: rest.map (fun q =>
            create_searchable_pdf_with_settings q.width q.height q.regions B q.assemble
              (some st))
    ∧ (∀ q : PageInput, cachedSize q st ≤ B →
        create_searchable_pdf_with_settings q.width q.height q.regions B q.assemble (some st)
          = SearchResult.mk (Outcome.ok (cachedAttempt q st) (cachedSize q st))
              [cachedAttempt q st] (some st))
    ∧ ∀ q : PageInput, B < cachedSize q st →
        create_searchable_pdf_with_settings q.width q.height q.regions B q.assemble (some st)
          = create_searchable_pdf q.width q.height q.regions B q.assemble := by
  refine ⟨?_, ?_, ?_⟩
  · simp only [processBatch]
    rw [hcache]
  · intro q hfit
    simp only [cachedSize, cachedAttempt] at hfit
    simp only [create_searchable_pdf_with_settings, cachedSize, cachedAttempt]
    rw [if_pos hfit]
  · intro q hmiss
    simp only [cachedSize, cachedAttempt] at hmiss
    simp only [create_searchable_pdf_with_settings]
    rw [if_neg (not_le.mpr hmiss)]

/-- Witness for C1: the probe page caches JPEG quality 90; the later page's
cached-plan assembly (500000 bytes) fits the 1 MiB budget. -/
theorem C1_batch_plan_caching_witness :
    batchCache (processPage 1048576 pageProbe) = some (Settings.jpegOnly 90)
    ∧ (processBatch 1048576 (pageProbe :: [pageNext])
          = processPage 1048576 pageProbe :: [pageNext].map (fun q =>
              create_searchable_pdf_with_settings q.width q.height q.regions 1048576
                q.assemble (some (Settings.jpegOnly 90)))
        ∧ (∀ q : PageInput, cachedSize q (Settings.jpegOnly 90) ≤ 1048576 →
            create_searchable_pdf_with_settings q.width q.height q.regions 1048576 q.assemble
                (some (Settings.jpegOnly 90))
              = SearchResult.mk
                  (Outcome.ok (cachedAttempt q (Settings.jpegOnly 90))
                    (cachedSize q (Settings.jpegOnly 90)))
                  [cachedAttempt q (Settings.jpegOnly 90)] (some (Settings.jpegOnly 90)))
        ∧ ∀ q : PageInput, 1048576 < cachedSize q (Settings.jpegOnly 90) →
            create_searchable_pdf_with_settings q.width q.height q.regions 1048576 q.assemble
                (some (Settings.jpegOnly 90))
              = create_searchable_pdf q.width q.height q.regions 1048576 q.assemble) :=
  ⟨by decide,
    C1_batch_plan_caching 1048576 pageProbe [pageNext] (Settings.jpegOnly 90) (by decide)⟩
